import Mathlib

/-!
Verification development for the Grawlr web-crawling library.

The definitions below are a shallow embedding of the Go sources:
* `harvester.go` (the `grawlr` package `Harvester`: `Visit`, `fetch`,
  `checkRobots`, `checkFilters`, `checkDepth`, `isURLAllowed`,
  the error constructors, and the hook dispatch),
* `store.go` (`InMemoryStore`),
* the `grawl` package `Request.GetAbsoluteURL`.

External collaborators (the HTTP client, the robots.txt rule parser, the
goquery HTML parser, and `net/url` resolution) are modelled as explicit
parameters (`World`, `URLLib`): the embedding records which HTTP requests
the pipeline issues and which hook stages it runs, so that policy,
caching and ordering properties can be stated and settled.
-/

namespace Grawlr

/-- Error message produced by `ErrForbiddenURL` (`harvester.go:35`):
`fmt.Errorf("URL %s is forbidden", u)`.  In the source these constructors
build a fresh error value per call; the observable content is the message. -/
def ErrForbiddenURL (u : String) : String :=
  "URL " ++ u ++ " is forbidden"

/-- Error message produced by `ErrRobotsDisallowed` (`harvester.go:39`):
`fmt.Errorf("URL %s is disallowed by robots.txt", u)`. -/
def ErrRobotsDisallowed (u : String) : String :=
  "URL " ++ u ++ " is disallowed by robots.txt"

/-- Error message produced by `ErrVisitedURL` (`harvester.go:43`):
`fmt.Errorf("URL %s has already been visited", u)`. -/
def ErrVisitedURL (u : String) : String :=
  "URL " ++ u ++ " has already been visited"

/-- Error message produced by `ErrDepthLimitExceeded` (`harvester.go:47`):
`fmt.Errorf("depth limit exceeded: %d > %d", depth, limit)`. -/
def ErrDepthLimitExceeded (depth lim : Nat) : String :=
  "depth limit exceeded: " ++ toString depth ++ " > " ++ toString lim

/-- Harvester configuration fields used by the fetch pipeline
(`harvester.go:70-97`).  `DepthLimit` is non-negative (0 = unlimited). -/
structure Config where
  allowedURLs : List String
  disallowedURLs : List String
  depthLimit : Nat
  allowRevisit : Bool
  ignoreRobots : Bool
deriving Repr

/-- `strings.HasPrefix(s, p)` computed on the character lists, so that
concrete instances reduce inside the kernel. -/
def listIsLeading : List Char → List Char → Bool
  | [], _ => true
  | _ :: _, [] => false
  | c :: cs, d :: ds => c == d && listIsLeading cs ds

/-- `strings.HasPrefix(s, p)`: `p` is a leading substring of `s`. -/
def strStartsWith (s p : String) : Bool :=
  listIsLeading p.data s.data

/-- One of the two `for ... range` loops of `isURLAllowed`
(`harvester.go:418-422` and `428-432`): scan the list in order and
return `true` at the first entry that is a leading substring of `u`. -/
def anyMatchingStart : List String → String → Bool
  | [], _ => false
  | p :: rest, u => if strStartsWith u p then true else anyMatchingStart rest u

/-- `isURLAllowed` (`harvester.go:417-435`): the disallow loop returns
`false` on a match; otherwise an empty allow list admits everything,
and a non-empty allow list admits only matching URLs. -/
def isURLAllowed (cfg : Config) (u : String) : Bool :=
  if anyMatchingStart cfg.disallowedURLs u then false
  else if cfg.allowedURLs.length == 0 then true
  else anyMatchingStart cfg.allowedURLs u

/-- Modelled from the spec (§4.1): "a URL matching any disallow-prefix is
rejected outright, regardless of allow list.  Otherwise, if the allow list
is empty, every URL is allowed; if non-empty, the URL must match at least
one allow-prefix", with matching a leading-substring test on the absolute
URL string. -/
def isURLAllowedSpec (cfg : Config) (u : String) : Bool :=
  if cfg.disallowedURLs.any (fun d => strStartsWith u d) then false
  else if cfg.allowedURLs = [] then true
  else cfg.allowedURLs.any (fun a => strStartsWith u a)

theorem anyMatchingStart_eq_any (l : List String) (u : String) :
    anyMatchingStart l u = l.any (fun p => strStartsWith u p) := by
  induction l with
  | nil => rfl
  | cons p rest ih =>
      by_cases h : strStartsWith u p = true <;> simp [anyMatchingStart, h, ih]

/-- Parsed absolute URL, the fields of `net/url.URL` that the pipeline
reads (`Scheme`, `Host`, `Path`); `String()` reassembles them. -/
structure URL where
  scheme : String
  host : String
  path : String
deriving Repr, DecidableEq

def URL.toString (u : URL) : String :=
  u.scheme ++ "://" ++ u.host ++ u.path

/-- Model of the external robots.txt rule set (`robotstxt.RobotsData`,
consumed as a capability "test `(path, agent) -> allowed`"): the rules
relevant to the fixed agent, as a list of disallowed path openings. -/
structure RobotsData where
  disallow : List String
deriving Repr, DecidableEq

/-- `robot.TestAgent(path, "Grawlr")`: allowed iff no disallow rule
matches the path. -/
def RobotsData.testAgent (r : RobotsData) (path : String) : Bool :=
  r.disallow.all (fun d => !(strStartsWith path d))

/-- Outcome of `h.Client.Do(req)` for one URL: a transport error, or a
delivered response with its status code and the result of reading its
body (`none` when `io.ReadAll(res.Body)` fails mid-stream). -/
inductive HttpResult where
  | transportError
  | response (statusCode : Nat) (body : Option String)
deriving Repr, DecidableEq

/-- The external world the Harvester talks to: the HTTP transport for
page URLs, the composite `Client.Get` + `robotstxt.FromResponse` for
robots.txt URLs (`none` = network or parse failure), and whether
`goquery.NewDocumentFromReader` succeeds on given bytes. -/
structure World where
  pages : String → HttpResult
  robots : String → Option RobotsData
  parseHTML : String → Bool

/-- Mutable Harvester state: the visited store (`InMemoryStore.visited`,
`store.go:29-53`; membership is what `Visited` reports, insertion is
`Visit`) and the per-host robots cache (`robotsMap`, `harvester.go:94`). -/
structure HState where
  visited : List String
  robotsMap : List (String × RobotsData)
deriving Repr, DecidableEq

/-- `s.visited[url]` via `InMemoryStore.Visited`. -/
def HState.visitedB (st : HState) (u : String) : Bool :=
  st.visited.contains u

/-- The errors `fetch` can return, tagged by kind; `message` below maps
each to the string the Go constructors interpolate. -/
inductive FetchError where
  | parseURL
  | robotsFetch (robotsURL : String)
  | robotsDisallowed (u : String)
  | visitedURL (u : String)
  | forbiddenURL (u : String)
  | depthLimit (depth lim : Nat)
  | transport (u : String)
  | bodyRead (u : String)
deriving Repr, DecidableEq

/-- Message of the sentinel-constructor errors (`harvester.go:33-50`);
pass-through transport and parse errors keep no fixed message. -/
def FetchError.message : FetchError → Option String
  | .robotsDisallowed u => some (ErrRobotsDisallowed u)
  | .visitedURL u => some (ErrVisitedURL u)
  | .forbiddenURL u => some (ErrForbiddenURL u)
  | .depthLimit d l => some (ErrDepthLimitExceeded d l)
  | _ => none

/-- One HTTP request issued by the pipeline: a robots.txt fetch done
inside `checkRobots` (recorded with the host it is for) or the page
fetch `h.Client.Do(req)`. -/
inductive Ev where
  | robotsReq (host : String) (url : String)
  | pageReq (u : String)
deriving Repr, DecidableEq

def Ev.isPageReq : Ev → Bool
  | .pageReq _ => true
  | _ => false

/-- Hook-dispatch stages the pipeline reaches, in order:
`handleRequestDo`, `handleResponseDo` (with the status code the response
hooks observe), and the element-hook pass of `handleHtmlDo` (reached
only when the HTML parse succeeds). -/
inductive Stage where
  | requestHooks
  | responseHooks (statusCode : Nat)
  | elementHooks
deriving Repr, DecidableEq

/-- The robots.txt location `checkRobots` fetches on a cache miss:
`parsedURL.Scheme + "://" + parsedURL.Host + "/robots.txt"`. -/
def robotsURLOf (pu : URL) : String :=
  pu.scheme ++ "://" ++ pu.host ++ "/robots.txt"

/-- `checkRobots` (`harvester.go:355-392`): skip when `ignoreRobots`;
look the host up in the cache; on a miss, fetch and parse
`{scheme}://{host}/robots.txt` (an HTTP request, recorded), store the
parsed rules keyed by host, and only then evaluate `TestAgent` on the
path.  A failed fetch-or-parse returns the error without caching. -/
def checkRobots (cfg : Config) (w : World) (st : HState) (pu : URL) :
    Except FetchError Unit × HState × List Ev :=
  if cfg.ignoreRobots then (.ok (), st, [])
  else
    match st.robotsMap.lookup pu.host with
    | some robot =>
        ((if robot.testAgent pu.path then .ok ()
          else .error (.robotsDisallowed pu.toString)), st, [])
    | none =>
        match w.robots (robotsURLOf pu) with
        | none => (.error (.robotsFetch (robotsURLOf pu)), st,
                   [.robotsReq pu.host (robotsURLOf pu)])
        | some robot =>
            ((if robot.testAgent pu.path then .ok ()
              else .error (.robotsDisallowed pu.toString)),
             { st with robotsMap := (pu.host, robot) :: st.robotsMap },
             [.robotsReq pu.host (robotsURLOf pu)])

/-- `checkFilters` (`harvester.go:394-406`): the visited check (skipped
when `AllowRevisit`) runs before the allow/deny policy check. -/
def checkFilters (cfg : Config) (st : HState) (u : String) :
    Except FetchError Unit :=
  if !cfg.allowRevisit && st.visitedB u then .error (.visitedURL u)
  else if !(isURLAllowed cfg u) then .error (.forbiddenURL u)
  else .ok ()

/-- `checkDepth` (`harvester.go:408-414`): fails when the limit is
non-zero and the current depth has reached it. -/
def checkDepth (cfg : Config) (depth : Nat) : Except FetchError Unit :=
  if cfg.depthLimit != 0 && cfg.depthLimit ≤ depth then
    .error (.depthLimit depth cfg.depthLimit)
  else .ok ()

/-- Result of one `fetch` call: the returned error or nil, the state
after the call, the HTTP requests issued, and the hook stages run. -/
structure FetchOut where
  result : Except FetchError Unit
  state : HState
  reqs : List Ev
  stages : List Stage
deriving Repr

/-- `fetch` (`harvester.go:242-317`) with empty hook registries: robots
check, filters, depth check, request hooks, `Client.Do`, mark visited
(`h.store.Visit`, immediately after a successful round trip), read the
body, run response hooks, and run the element pass when the HTML parse
succeeds (`handleHtmlDo` logs and skips on parse failure). -/
def fetch (cfg : Config) (w : World) (st : HState) (pu : URL) (depth : Nat) :
    FetchOut :=
  match checkRobots cfg w st pu with
  | (.error e, st₁, evs) => ⟨.error e, st₁, evs, []⟩
  | (.ok _, st₁, evs) =>
    match checkFilters cfg st₁ pu.toString with
    | .error e => ⟨.error e, st₁, evs, []⟩
    | .ok _ =>
      match checkDepth cfg depth with
      | .error e => ⟨.error e, st₁, evs, []⟩
      | .ok _ =>
        match w.pages pu.toString with
        | .transportError =>
            ⟨.error (.transport pu.toString), st₁,
             evs ++ [.pageReq pu.toString], [.requestHooks]⟩
        | .response sc body =>
          match body with
          | none =>
              ⟨.error (.bodyRead pu.toString),
               { st₁ with visited := pu.toString :: st₁.visited },
               evs ++ [.pageReq pu.toString], [.requestHooks]⟩
          | some b =>
              ⟨.ok (), { st₁ with visited := pu.toString :: st₁.visited },
               evs ++ [.pageReq pu.toString],
               [.requestHooks, .responseHooks sc] ++
                 (if w.parseHTML b then [.elementHooks] else [])⟩

/-- Outcome of `url.Parse(u)` at the top of `fetch`: the parse either
fails or produces the URL value the rest of the pipeline works on. -/
inductive ParseResult where
  | failed
  | parsed (u : URL)
deriving Repr, DecidableEq

/-- `Visit` (`harvester.go:238-240`): `fetch(u, GET, 0)`, returning the
`url.Parse` error directly when parsing fails. -/
def visit (cfg : Config) (w : World) (st : HState) : ParseResult → FetchOut
  | .failed => ⟨.error .parseURL, st, [], []⟩
  | .parsed pu => fetch cfg w st pu 0

/-- Sequential `Visit` calls on one Harvester, threading the state and
collecting every HTTP request issued. -/
def visitSeq (cfg : Config) (w : World) : List URL → HState → HState × List Ev
  | [], st => (st, [])
  | u :: rest, st =>
    let out := fetch cfg w st u 0
    let (st', evs) := visitSeq cfg w rest out.state
    (st', out.reqs ++ evs)

/-- Number of robots.txt fetches issued for host `h` in a request log. -/
def robotsFetchCount (h : String) (evs : List Ev) : Nat :=
  (evs.filter (fun e => match e with
    | .robotsReq h' _ => h' == h
    | _ => false)).length

/-- Empty starting state: nothing visited, no robots rules cached. -/
def st0 : HState := ⟨[], []⟩

/-- A robots rule set with no disallow rules: every path is allowed. -/
def allowAllRobots : RobotsData := ⟨[]⟩

/-- A world where every page fetch succeeds with status 200, every
robots.txt fetch parses to an allow-everything rule set, and every body
parses as HTML. -/
def wOK : World :=
  ⟨fun _ => .response 200 (some "<html></html>"),
   fun _ => some allowAllRobots, fun _ => true⟩

theorem checkRobots_visited (cfg : Config) (w : World) (st : HState) (pu : URL) :
    ((checkRobots cfg w st pu).2.1).visited = st.visited := by
  unfold checkRobots
  split
  · rfl
  · split
    · rfl
    · split <;> rfl

theorem checkRobots_reqs_not_page (cfg : Config) (w : World) (st : HState) (pu : URL) :
    ∀ e ∈ (checkRobots cfg w st pu).2.2, e.isPageReq = false := by
  unfold checkRobots
  split
  · simp
  · split
    · simp
    · split <;> simp [Ev.isPageReq]

theorem isURLAllowed_false_of_disallow (cfg : Config) (u : String)
    (hd : anyMatchingStart cfg.disallowedURLs u = true) :
    isURLAllowed cfg u = false := by
  simp [isURLAllowed, hd]

/-- Whether the robots gate of `checkRobots` lets the URL through:
robots are ignored, or the (cached, else freshly fetched) rule set
allows the path.  Stated independently of `fetch` so that theorems about
the pipeline's effects relate them. -/
def robotsGateOk (cfg : Config) (w : World) (st : HState) (pu : URL) : Bool :=
  cfg.ignoreRobots ||
    (match st.robotsMap.lookup pu.host with
     | some robot => robot.testAgent pu.path
     | none =>
       match w.robots (robotsURLOf pu) with
       | some robot => robot.testAgent pu.path
       | none => false)

/-- Whether `checkFilters` lets the URL through: not a blocked revisit,
and allowed by the deny/allow policy. -/
def filtersOk (cfg : Config) (st : HState) (u : String) : Bool :=
  (cfg.allowRevisit || !(st.visitedB u)) && isURLAllowed cfg u

/-- Whether `checkDepth` lets the call through. -/
def depthOk (cfg : Config) (depth : Nat) : Bool :=
  !(cfg.depthLimit != 0 && cfg.depthLimit ≤ depth)

/-- Whether `h.Client.Do` returns without transport error for `u`. -/
def doDelivers (w : World) (u : String) : Bool :=
  match w.pages u with
  | .transportError => false
  | .response _ _ => true

theorem checkRobots_ok_iff (cfg : Config) (w : World) (st : HState) (pu : URL) :
    ((checkRobots cfg w st pu).1 = .ok ()) ↔ robotsGateOk cfg w st pu = true := by
  unfold checkRobots robotsGateOk
  split
  · simp_all
  · split
    · split <;> simp_all
    · split
      · simp_all
      · split <;> simp_all

theorem checkFilters_ok_iff (cfg : Config) (st : HState) (u : String) :
    (checkFilters cfg st u = .ok ()) ↔ filtersOk cfg st u = true := by
  unfold checkFilters filtersOk
  cases har : cfg.allowRevisit <;> cases hvis : st.visitedB u <;>
    cases hal : isURLAllowed cfg u <;> simp [har, hvis, hal]

theorem checkDepth_ok_iff (cfg : Config) (depth : Nat) :
    (checkDepth cfg depth = .ok ()) ↔ depthOk cfg depth = true := by
  unfold checkDepth depthOk
  split <;> simp_all
  omega

theorem filtersOk_of_visited_eq (cfg : Config) {st st' : HState} (u : String)
    (hv : st'.visited = st.visited) :
    filtersOk cfg st' u = filtersOk cfg st u := by
  simp [filtersOk, HState.visitedB, hv]

end Grawlr

/-- Claim C6: in a sequential execution with no hooks registered, the
visited store gains exactly the fetched URL precisely when all the
pre-flight gates (robots, visited/policy filters, depth) pass and the
HTTP call returns without transport error — marking happens after
`Client.Do` — and it is unchanged in every other case, in particular
whenever `Visit` returns a URL-parse, robots, policy, depth, or
transport error. -/
theorem Grawlr.claim_C6_visited_marking (cfg : Grawlr.Config) (w : Grawlr.World)
    (st : Grawlr.HState) (pu : Grawlr.URL) (depth : Nat) :
    (Grawlr.fetch cfg w st pu depth).state.visited =
      (if Grawlr.robotsGateOk cfg w st pu &&
          Grawlr.filtersOk cfg st pu.toString &&
          Grawlr.depthOk cfg depth &&
          Grawlr.doDelivers w pu.toString
       then pu.toString :: st.visited else st.visited) ∧
    (Grawlr.visit cfg w st .failed).state.visited = st.visited := by
  refine ⟨?_, rfl⟩
  rcases hcr : Grawlr.checkRobots cfg w st pu with ⟨res, st₁, evs⟩
  have hv : st₁.visited = st.visited := by
    have h := Grawlr.checkRobots_visited cfg w st pu
    rw [hcr] at h; exact h
  have hiff := Grawlr.checkRobots_ok_iff cfg w st pu
  rw [hcr] at hiff
  cases res with
  | error e =>
      have hg : Grawlr.robotsGateOk cfg w st pu = false := by
        rcases Bool.eq_false_or_eq_true (Grawlr.robotsGateOk cfg w st pu) with h | h
        · exact absurd (hiff.mpr h) (by simp)
        · exact h
      simp [Grawlr.fetch, hcr, hg, hv]
  | ok x =>
      cases x
      have hg : Grawlr.robotsGateOk cfg w st pu = true := hiff.mp rfl
      have hfe : Grawlr.filtersOk cfg st₁ pu.toString =
          Grawlr.filtersOk cfg st pu.toString :=
        Grawlr.filtersOk_of_visited_eq cfg pu.toString hv
      rcases hcf : Grawlr.checkFilters cfg st₁ pu.toString with e | u
      · have hf : Grawlr.filtersOk cfg st pu.toString = false := by
          rw [← hfe]
          rcases Bool.eq_false_or_eq_true (Grawlr.filtersOk cfg st₁ pu.toString) with h | h
          · rw [(Grawlr.checkFilters_ok_iff cfg st₁ pu.toString).mpr h] at hcf
            cases hcf
          · exact h
        simp [Grawlr.fetch, hcr, hcf, hg, hf, hv]
      · cases u
        have hf : Grawlr.filtersOk cfg st pu.toString = true := by
          rw [← hfe]
          exact (Grawlr.checkFilters_ok_iff cfg st₁ pu.toString).mp hcf
        rcases hcd : Grawlr.checkDepth cfg depth with e | u
        · have hdp : Grawlr.depthOk cfg depth = false := by
            rcases Bool.eq_false_or_eq_true (Grawlr.depthOk cfg depth) with h | h
            · rw [(Grawlr.checkDepth_ok_iff cfg depth).mpr h] at hcd
              cases hcd
            · exact h
          simp [Grawlr.fetch, hcr, hcf, hcd, hg, hf, hdp, hv]
        · cases u
          have hdp : Grawlr.depthOk cfg depth = true :=
            (Grawlr.checkDepth_ok_iff cfg depth).mp hcd
          rcases hp : w.pages pu.toString with _ | ⟨sc, body⟩
          · have hdel : Grawlr.doDelivers w pu.toString = false := by
              simp [Grawlr.doDelivers, hp]
            simp [Grawlr.fetch, hcr, hcf, hcd, hp, hg, hf, hdp, hdel, hv]
          · have hdel : Grawlr.doDelivers w pu.toString = true := by
              simp [Grawlr.doDelivers, hp]
            cases body <;>
              simp [Grawlr.fetch, hcr, hcf, hcd, hp, hg, hf, hdp, hdel, hv]

namespace Grawlr

/-- Helper: when all three pre-flight gates pass, `fetch` reduces to the
HTTP call and body handling. -/
theorem fetch_gates_ok (cfg : Config) (w : World) (st : HState) (pu : URL)
    (depth : Nat)
    (hr : robotsGateOk cfg w st pu = true)
    (hf : filtersOk cfg st pu.toString = true)
    (hdep : depthOk cfg depth = true) :
    ∃ st₁ evs, checkRobots cfg w st pu = (.ok (), st₁, evs) ∧
      st₁.visited = st.visited ∧
      checkFilters cfg st₁ pu.toString = .ok () ∧
      checkDepth cfg depth = .ok () := by
  rcases hcr : checkRobots cfg w st pu with ⟨res, st₁, evs⟩
  have hv : st₁.visited = st.visited := by
    have h := checkRobots_visited cfg w st pu
    rw [hcr] at h; exact h
  have hiff := checkRobots_ok_iff cfg w st pu
  rw [hcr] at hiff
  have hres : res = .ok () := hiff.mpr hr
  subst hres
  refine ⟨st₁, evs, rfl, hv, ?_, (checkDepth_ok_iff cfg depth).mpr hdep⟩
  refine (checkFilters_ok_iff cfg st₁ pu.toString).mpr ?_
  rw [filtersOk_of_visited_eq cfg pu.toString hv]
  exact hf

end Grawlr

/-- Claim C10: the pipeline never inspects the status code: whenever the
gates pass and the transport delivers a response — with any status code,
404 and 500 included — and the body parses, `Visit` returns nil, marks
the URL visited, and runs the request, response and element hook stages;
the status code is only recorded on the response handed to the hooks. -/
theorem Grawlr.claim_C10_status_code_ignored (cfg : Grawlr.Config)
    (w : Grawlr.World) (st : Grawlr.HState) (pu : Grawlr.URL) (depth : Nat)
    (sc : Nat) (b : String)
    (hr : Grawlr.robotsGateOk cfg w st pu = true)
    (hf : Grawlr.filtersOk cfg st pu.toString = true)
    (hdep : Grawlr.depthOk cfg depth = true)
    (hw : w.pages pu.toString = .response sc (some b))
    (hp : w.parseHTML b = true) :
    (Grawlr.fetch cfg w st pu depth).result = .ok () ∧
    (Grawlr.fetch cfg w st pu depth).state.visited = pu.toString :: st.visited ∧
    (Grawlr.fetch cfg w st pu depth).stages =
      [.requestHooks, .responseHooks sc, .elementHooks] := by
  obtain ⟨st₁, evs, hcr, hv, hcf, hcd⟩ :=
    Grawlr.fetch_gates_ok cfg w st pu depth hr hf hdep
  refine ⟨?_, ?_, ?_⟩ <;>
    simp [Grawlr.fetch, hcr, hcf, hcd, hw, hp, hv]

/-- Claim C10 (witness): a server answering 404 with parseable HTML: the
visit succeeds, the URL is marked visited, and all hook stages run with
the 404 recorded for the response hooks. -/
theorem Grawlr.claim_C10_witness :
    ((Grawlr.fetch ⟨[], [], 0, false, false⟩
        ⟨fun _ => .response 404 (some "<html></html>"),
         fun _ => some Grawlr.allowAllRobots, fun _ => true⟩
        Grawlr.st0 ⟨"http", "ex.com", "/404"⟩ 0).result = .ok () ∧
     (Grawlr.fetch ⟨[], [], 0, false, false⟩
        ⟨fun _ => .response 404 (some "<html></html>"),
         fun _ => some Grawlr.allowAllRobots, fun _ => true⟩
        Grawlr.st0 ⟨"http", "ex.com", "/404"⟩ 0).state.visited =
       Grawlr.URL.toString ⟨"http", "ex.com", "/404"⟩ :: Grawlr.st0.visited ∧
     (Grawlr.fetch ⟨[], [], 0, false, false⟩
        ⟨fun _ => .response 404 (some "<html></html>"),
         fun _ => some Grawlr.allowAllRobots, fun _ => true⟩
        Grawlr.st0 ⟨"http", "ex.com", "/404"⟩ 0).stages =
       [.requestHooks, .responseHooks 404, .elementHooks]) :=
  Grawlr.claim_C10_status_code_ignored ⟨[], [], 0, false, false⟩
    ⟨fun _ => .response 404 (some "<html></html>"),
     fun _ => some Grawlr.allowAllRobots, fun _ => true⟩
    Grawlr.st0 ⟨"http", "ex.com", "/404"⟩ 0 404 "<html></html>"
    (by decide) (by decide) (by decide) rfl rfl

/-- Claim C8 (counterexample): when the buffered body fails to parse as
HTML, `Visit` does not surface the error: `handleHtmlDo` logs it and
returns, the element pass is skipped, and `Visit` returns nil
(success). -/
theorem Grawlr.claim_C8_counterexample :
    (Grawlr.fetch ⟨[], [], 0, false, false⟩
        ⟨fun _ => .response 200 (some "<p"),
         fun _ => some Grawlr.allowAllRobots, fun _ => false⟩
        Grawlr.st0 ⟨"http", "ex.com", "/bad"⟩ 0).result = .ok () ∧
    (Grawlr.fetch ⟨[], [], 0, false, false⟩
        ⟨fun _ => .response 200 (some "<p"),
         fun _ => some Grawlr.allowAllRobots, fun _ => false⟩
        Grawlr.st0 ⟨"http", "ex.com", "/bad"⟩ 0).stages =
      [.requestHooks, .responseHooks 200] :=
  ⟨rfl, by decide⟩

/-- Claim C8 (amended): a body that cannot be parsed into a document is
not surfaced to the caller: the parse failure is only logged inside
`handleHtmlDo`, the element-hook pass is skipped, and `Visit` still
returns nil after marking the URL visited and running the response
hooks. -/
theorem Grawlr.claim_C8_amended (cfg : Grawlr.Config) (w : Grawlr.World)
    (st : Grawlr.HState) (pu : Grawlr.URL) (depth : Nat) (sc : Nat) (b : String)
    (hr : Grawlr.robotsGateOk cfg w st pu = true)
    (hf : Grawlr.filtersOk cfg st pu.toString = true)
    (hdep : Grawlr.depthOk cfg depth = true)
    (hw : w.pages pu.toString = .response sc (some b))
    (hp : w.parseHTML b = false) :
    (Grawlr.fetch cfg w st pu depth).result = .ok () ∧
    (Grawlr.fetch cfg w st pu depth).state.visited = pu.toString :: st.visited ∧
    (Grawlr.fetch cfg w st pu depth).stages =
      [.requestHooks, .responseHooks sc] := by
  obtain ⟨st₁, evs, hcr, hv, hcf, hcd⟩ :=
    Grawlr.fetch_gates_ok cfg w st pu depth hr hf hdep
  refine ⟨?_, ?_, ?_⟩ <;>
    simp [Grawlr.fetch, hcr, hcf, hcd, hw, hp, hv]

/-- Claim C8 (witness): the amended behavior at the concrete
unparseable-body world used in the counterexample. -/
theorem Grawlr.claim_C8_amended_witness :
    ((Grawlr.fetch ⟨[], [], 0, false, false⟩
        ⟨fun _ => .response 200 (some "<p"),
         fun _ => some Grawlr.allowAllRobots, fun _ => false⟩
        Grawlr.st0 ⟨"http", "ex.com", "/bad"⟩ 0).result = .ok () ∧
     (Grawlr.fetch ⟨[], [], 0, false, false⟩
        ⟨fun _ => .response 200 (some "<p"),
         fun _ => some Grawlr.allowAllRobots, fun _ => false⟩
        Grawlr.st0 ⟨"http", "ex.com", "/bad"⟩ 0).state.visited =
       Grawlr.URL.toString ⟨"http", "ex.com", "/bad"⟩ :: Grawlr.st0.visited ∧
     (Grawlr.fetch ⟨[], [], 0, false, false⟩
        ⟨fun _ => .response 200 (some "<p"),
         fun _ => some Grawlr.allowAllRobots, fun _ => false⟩
        Grawlr.st0 ⟨"http", "ex.com", "/bad"⟩ 0).stages =
       [.requestHooks, .responseHooks 200]) :=
  Grawlr.claim_C8_amended ⟨[], [], 0, false, false⟩
    ⟨fun _ => .response 200 (some "<p"),
     fun _ => some Grawlr.allowAllRobots, fun _ => false⟩
    Grawlr.st0 ⟨"http", "ex.com", "/bad"⟩ 0 200 "<p"
    (by decide) (by decide) (by decide) rfl rfl

namespace Grawlr

/-- 1 when host `h` has a cached robots rule set in the state, else 0. -/
def cacheInd (h : String) (st : HState) : Nat :=
  if (st.robotsMap.lookup h).isSome then 1 else 0

theorem robotsFetchCount_append (h : String) (a b : List Ev) :
    robotsFetchCount h (a ++ b) = robotsFetchCount h a + robotsFetchCount h b := by
  simp [robotsFetchCount, List.filter_append]

theorem fetch_robotsMap (cfg : Config) (w : World) (st : HState) (pu : URL)
    (depth : Nat) :
    (fetch cfg w st pu depth).state.robotsMap =
      (checkRobots cfg w st pu).2.1.robotsMap := by
  rcases hcr : checkRobots cfg w st pu with ⟨res, st₁, evs⟩
  rcases res with e | u
  · simp [fetch, hcr]
  · cases u
    rcases hcf : checkFilters cfg st₁ pu.toString with e | u
    · simp [fetch, hcr, hcf]
    · cases u
      rcases hcd : checkDepth cfg depth with e | u
      · simp [fetch, hcr, hcf, hcd]
      · cases u
        rcases hp : w.pages pu.toString with _ | ⟨sc, body⟩
        · simp [fetch, hcr, hcf, hcd, hp]
        · cases body <;> simp [fetch, hcr, hcf, hcd, hp]

theorem fetch_robots_count (h : String) (cfg : Config) (w : World)
    (st : HState) (pu : URL) (depth : Nat) :
    robotsFetchCount h (fetch cfg w st pu depth).reqs =
      robotsFetchCount h (checkRobots cfg w st pu).2.2 := by
  rcases hcr : checkRobots cfg w st pu with ⟨res, st₁, evs⟩
  rcases res with e | u
  · simp [fetch, hcr]
  · cases u
    rcases hcf : checkFilters cfg st₁ pu.toString with e | u
    · simp [fetch, hcr, hcf]
    · cases u
      rcases hcd : checkDepth cfg depth with e | u
      · simp [fetch, hcr, hcf, hcd]
      · cases u
        rcases hp : w.pages pu.toString with _ | ⟨sc, body⟩
        · simp [fetch, hcr, hcf, hcd, hp, robotsFetchCount_append,
                robotsFetchCount]
        · cases body <;>
            simp [fetch, hcr, hcf, hcd, hp, robotsFetchCount_append,
                  robotsFetchCount]

theorem checkRobots_count_invariant (cfg : Config) (w : World) (st : HState)
    (pu : URL) (h : String)
    (hw : ∀ s, w.robots (s ++ "://" ++ h ++ "/robots.txt") ≠ none) :
    robotsFetchCount h (checkRobots cfg w st pu).2.2 + cacheInd h st ≤
      cacheInd h (checkRobots cfg w st pu).2.1 := by
  unfold checkRobots
  split
  · simp [robotsFetchCount]
  · split
    · rename_i robot hlk
      simp [robotsFetchCount, cacheInd, hlk]
    · rename_i hlk
      split
      · rename_i hwr
        by_cases hph : pu.host = h
        · subst hph
          exact absurd hwr (hw pu.scheme)
        · simp [robotsFetchCount, cacheInd, hlk, hph]
      · rename_i robot hwr
        by_cases hph : pu.host = h
        · subst hph
          simp [robotsFetchCount, cacheInd, hlk, List.lookup]
        · have hlc : List.lookup h ((pu.host, robot) :: st.robotsMap) =
              List.lookup h st.robotsMap := by
            have hb : (h == pu.host) = false :=
              beq_eq_false_iff_ne.mpr (Ne.symm hph)
            simp [List.lookup, hb]
          have hb2 : (pu.host == h) = false := beq_eq_false_iff_ne.mpr hph
          simp only [robotsFetchCount, cacheInd, List.filter, hb2]
          rw [hlc]
          simp

theorem visitSeq_cons_snd (cfg : Config) (w : World) (u : URL)
    (rest : List URL) (st : HState) :
    (visitSeq cfg w (u :: rest) st).2 =
      (fetch cfg w st u 0).reqs ++
        (visitSeq cfg w rest (fetch cfg w st u 0).state).2 := rfl

theorem cacheInd_eq_of_map_eq (h : String) {st st' : HState}
    (hm : st.robotsMap = st'.robotsMap) : cacheInd h st = cacheInd h st' := by
  unfold cacheInd
  rw [hm]

theorem visitSeq_robots_bound (cfg : Config) (w : World) (h : String)
    (hw : ∀ s, w.robots (s ++ "://" ++ h ++ "/robots.txt") ≠ none) :
    ∀ us st, robotsFetchCount h (visitSeq cfg w us st).2 + cacheInd h st ≤ 1 := by
  intro us
  induction us with
  | nil =>
      intro st
      have : cacheInd h st ≤ 1 := by
        unfold cacheInd; split <;> simp
      simpa [visitSeq, robotsFetchCount] using this
  | cons u rest ih =>
      intro st
      rw [visitSeq_cons_snd, robotsFetchCount_append]
      have h1 : robotsFetchCount h (fetch cfg w st u 0).reqs + cacheInd h st ≤
          cacheInd h (fetch cfg w st u 0).state := by
        rw [fetch_robots_count,
            cacheInd_eq_of_map_eq h (fetch_robotsMap cfg w st u 0)]
        exact checkRobots_count_invariant cfg w st u h hw
      have h2 := ih (fetch cfg w st u 0).state
      omega

theorem visitSeq_robots_zero (cfg : Config) (w : World)
    (hir : cfg.ignoreRobots = true) (h : String) :
    ∀ us st, robotsFetchCount h (visitSeq cfg w us st).2 = 0 := by
  intro us
  induction us with
  | nil => intro st; rfl
  | cons u rest ih =>
      intro st
      rw [visitSeq_cons_snd, robotsFetchCount_append, ih, fetch_robots_count]
      simp [checkRobots, hir, robotsFetchCount]

end Grawlr

/-- Claim C7 (counterexample): a robots.txt fetch that fails is not
cached, so it is retried: with the default configuration and a world
where the robots.txt fetch always fails, two sequential `Visit` calls to
the same host issue two robots.txt fetches for that host, refuting "at
most one robots.txt fetch per host". -/
theorem Grawlr.claim_C7_counterexample :
    ¬ (Grawlr.robotsFetchCount "ex.com"
        (Grawlr.visitSeq ⟨[], [], 0, false, false⟩
          ⟨fun _ => .response 200 (some ""), fun _ => none, fun _ => true⟩
          [⟨"http", "ex.com", "/page"⟩, ⟨"http", "ex.com", "/page"⟩]
          Grawlr.st0).2 ≤ 1) := by
  decide

/-- Claim C7 (amended): with the robots-ignore flag set, no robots.txt
fetch is ever issued; and for every host whose robots.txt fetch-and-parse
succeeds, at most one robots.txt fetch is issued for it across any
sequence of sequential `Visit` calls within one Harvester lifetime — the
rule set cached by the first successful fetch is reused (a *failed*
fetch is not cached and may be retried, as the counterexample shows). -/
theorem Grawlr.claim_C7_amended (cfg : Grawlr.Config) (w : Grawlr.World)
    (h : String) (us : List Grawlr.URL) (st : Grawlr.HState) :
    (cfg.ignoreRobots = true →
      Grawlr.robotsFetchCount h (Grawlr.visitSeq cfg w us st).2 = 0) ∧
    ((∀ s, w.robots (s ++ "://" ++ h ++ "/robots.txt") ≠ none) →
      Grawlr.robotsFetchCount h (Grawlr.visitSeq cfg w us st).2 +
        Grawlr.cacheInd h st ≤ 1) :=
  ⟨fun hir => Grawlr.visitSeq_robots_zero cfg w hir h us st,
   fun hw => Grawlr.visitSeq_robots_bound cfg w h hw us st⟩

/-- Claim C7 (witness): concretely, robots-ignoring visits issue zero
robots fetches, and two visits to one host in a world whose robots.txt
parses issue at most one robots fetch from an empty cache. -/
theorem Grawlr.claim_C7_amended_witness :
    (Grawlr.robotsFetchCount "ex.com"
      (Grawlr.visitSeq ⟨[], [], 0, false, true⟩ Grawlr.wOK
        [⟨"http", "ex.com", "/page"⟩, ⟨"http", "ex.com", "/faq"⟩]
        Grawlr.st0).2 = 0) ∧
    (Grawlr.robotsFetchCount "ex.com"
      (Grawlr.visitSeq ⟨[], [], 0, false, false⟩ Grawlr.wOK
        [⟨"http", "ex.com", "/page"⟩, ⟨"http", "ex.com", "/faq"⟩]
        Grawlr.st0).2 + Grawlr.cacheInd "ex.com" Grawlr.st0 ≤ 1) :=
  ⟨(Grawlr.claim_C7_amended ⟨[], [], 0, false, true⟩ Grawlr.wOK "ex.com"
      [⟨"http", "ex.com", "/page"⟩, ⟨"http", "ex.com", "/faq"⟩]
      Grawlr.st0).1 rfl,
   (Grawlr.claim_C7_amended ⟨[], [], 0, false, false⟩ Grawlr.wOK "ex.com"
      [⟨"http", "ex.com", "/page"⟩, ⟨"http", "ex.com", "/faq"⟩]
      Grawlr.st0).2 (fun s hs => by simp [Grawlr.wOK] at hs)⟩

namespace Grawlr

/-- Modelled from the spec: `Request.Visit` itself is not among the
sources (only its callers are): spec §9 and the
`TestHarvester_MaximumDepth` comment "resp.Request.Visit increments the
depth" fix its behavior as re-entering the fetch pipeline at
`r.Depth + 1`.  `fetchRevisit cfg w pu fuel depth st` is `fetch` at
`depth` with a single response hook that always re-visits `pu` through
that Request-bound revisit; `fuel` bounds the externally-unbounded
recursion.  It returns the final state and the number of page requests
(`Client.Do` calls) performed. -/
def fetchRevisit (cfg : Config) (w : World) (pu : URL) :
    Nat → Nat → HState → HState × Nat
  | 0, _, st => (st, 0)
  | fuel + 1, depth, st =>
    match checkRobots cfg w st pu with
    | (.error _, st₁, _) => (st₁, 0)
    | (.ok _, st₁, _) =>
      match checkFilters cfg st₁ pu.toString with
      | .error _ => (st₁, 0)
      | .ok _ =>
        match checkDepth cfg depth with
        | .error _ => (st₁, 0)
        | .ok _ =>
          match w.pages pu.toString with
          | .transportError => (st₁, 1)
          | .response _ body =>
            match body with
            | none => ({ st₁ with visited := pu.toString :: st₁.visited }, 1)
            | some _ =>
              match fetchRevisit cfg w pu fuel (depth + 1)
                  { st₁ with visited := pu.toString :: st₁.visited } with
              | (st₂, n) => (st₂, 1 + n)

theorem fetchRevisit_step (cfg : Config) (w : World) (pu : URL)
    (st : HState) (fuel depth : Nat) (sc : Nat) (b : String)
    (hir : cfg.ignoreRobots = true) (har : cfg.allowRevisit = true)
    (hal : isURLAllowed cfg pu.toString = true)
    (hw : w.pages pu.toString = .response sc (some b)) :
    fetchRevisit cfg w pu (fuel + 1) depth st =
      if cfg.depthLimit != 0 && cfg.depthLimit ≤ depth then (st, 0)
      else
        ((fetchRevisit cfg w pu fuel (depth + 1)
            { st with visited := pu.toString :: st.visited }).1,
         1 + (fetchRevisit cfg w pu fuel (depth + 1)
            { st with visited := pu.toString :: st.visited }).2) := by
  have hcr : checkRobots cfg w st pu = (.ok (), st, []) := by
    simp [checkRobots, hir]
  have hcf : checkFilters cfg st pu.toString = .ok () := by
    simp [checkFilters, har, hal]
  cases hdep : (cfg.depthLimit != 0 && decide (cfg.depthLimit ≤ depth)) with
  | true =>
      simp [fetchRevisit, hcr, hcf, checkDepth, hdep]
  | false =>
      simp [fetchRevisit, hcr, hcf, checkDepth, hdep, hw]

theorem fetchRevisit_unbounded (cfg : Config) (w : World) (pu : URL)
    (sc : Nat) (b : String)
    (hir : cfg.ignoreRobots = true) (har : cfg.allowRevisit = true)
    (hal : isURLAllowed cfg pu.toString = true)
    (hw : w.pages pu.toString = .response sc (some b))
    (hL : cfg.depthLimit = 0) :
    ∀ fuel depth st, (fetchRevisit cfg w pu fuel depth st).2 = fuel := by
  intro fuel
  induction fuel with
  | zero => intro depth st; rfl
  | succ f ih =>
      intro depth st
      rw [fetchRevisit_step cfg w pu st f depth sc b hir har hal hw]
      simp [hL, ih, Nat.add_comm]

theorem fetchRevisit_bounded (cfg : Config) (w : World) (pu : URL)
    (sc : Nat) (b : String)
    (hir : cfg.ignoreRobots = true) (har : cfg.allowRevisit = true)
    (hal : isURLAllowed cfg pu.toString = true)
    (hw : w.pages pu.toString = .response sc (some b))
    (hL : cfg.depthLimit ≠ 0) :
    ∀ fuel depth st, cfg.depthLimit - depth ≤ fuel →
      (fetchRevisit cfg w pu fuel depth st).2 = cfg.depthLimit - depth := by
  intro fuel
  induction fuel with
  | zero =>
      intro depth st hle
      have : (fetchRevisit cfg w pu 0 depth st).2 = 0 := rfl
      omega
  | succ f ih =>
      intro depth st hle
      rw [fetchRevisit_step cfg w pu st f depth sc b hir har hal hw]
      by_cases hd : cfg.depthLimit ≤ depth
      · have hcond : (cfg.depthLimit != 0 && decide (cfg.depthLimit ≤ depth)) = true := by
          simp [hL, hd]
        rw [hcond]
        simp
        omega
      · have hcond : (cfg.depthLimit != 0 && decide (cfg.depthLimit ≤ depth)) = false := by
          simp [hd]
        rw [hcond]
        simp only [Bool.false_eq_true, if_false]
        have hrec := ih (depth + 1)
          { st with visited := pu.toString :: st.visited } (by omega)
        simp only [hrec]
        omega

end Grawlr

/-- Claim C3: with a response hook that always re-visits the same URL
through the Request-bound depth-preserving revisit (depth carried
forward as `Depth + 1`), a Harvester with `DepthLimit = N > 0` performs
exactly `N` page fetches for one top-level `Visit` (given at least `N`
steps of external budget), while with `DepthLimit = 0` the number of
fetches equals the entire external budget, i.e. it grows without bound
until externally stopped.  Requires the revisit-friendly configuration
of the depth test: robots ignored, revisits allowed, URL allowed by
policy, and a transport that delivers the page. -/
theorem Grawlr.claim_C3_depth_limit_fetch_count (cfg : Grawlr.Config)
    (w : Grawlr.World) (pu : Grawlr.URL) (st : Grawlr.HState)
    (sc : Nat) (b : String)
    (hir : cfg.ignoreRobots = true) (har : cfg.allowRevisit = true)
    (hal : Grawlr.isURLAllowed cfg pu.toString = true)
    (hw : w.pages pu.toString = .response sc (some b)) :
    (cfg.depthLimit ≠ 0 → ∀ fuel, cfg.depthLimit ≤ fuel →
      (Grawlr.fetchRevisit cfg w pu fuel 0 st).2 = cfg.depthLimit) ∧
    (cfg.depthLimit = 0 → ∀ fuel,
      (Grawlr.fetchRevisit cfg w pu fuel 0 st).2 = fuel) :=
  ⟨fun hL fuel hle => by
      have h := Grawlr.fetchRevisit_bounded cfg w pu sc b hir har hal hw hL
        fuel 0 st (by omega)
      simpa using h,
   fun hL fuel =>
      Grawlr.fetchRevisit_unbounded cfg w pu sc b hir har hal hw hL
        fuel 0 st⟩

/-- Claim C3 (witness): with `DepthLimit = 2` and budget 5 the loop
performs exactly 2 fetches; with `DepthLimit = 0` and budget 3 it
performs 3 — one per available step. -/
theorem Grawlr.claim_C3_witness :
    (Grawlr.fetchRevisit ⟨[], [], 2, true, true⟩ Grawlr.wOK
        ⟨"http", "ex.com", "/page"⟩ 5 0 Grawlr.st0).2 = 2 ∧
    (Grawlr.fetchRevisit ⟨[], [], 0, true, true⟩ Grawlr.wOK
        ⟨"http", "ex.com", "/page"⟩ 3 0 Grawlr.st0).2 = 3 :=
  ⟨(Grawlr.claim_C3_depth_limit_fetch_count ⟨[], [], 2, true, true⟩ Grawlr.wOK
      ⟨"http", "ex.com", "/page"⟩ Grawlr.st0 200 "<html></html>"
      rfl rfl (by decide) rfl).1 (by decide) 5 (by decide),
   (Grawlr.claim_C3_depth_limit_fetch_count ⟨[], [], 0, true, true⟩ Grawlr.wOK
      ⟨"http", "ex.com", "/page"⟩ Grawlr.st0 200 "<html></html>"
      rfl rfl (by decide) rfl).2 rfl 3⟩

namespace Grawlr

/-- State of the `*bytes.Reader` built once per fetch
(`body := bytes.NewReader(b)`, `harvester.go:297`): the buffered bytes
and the current read cursor.  The same reader value is stored in the
`Response` and handed to the response hooks and then to
`goquery.NewDocumentFromReader`. -/
structure BytesReader where
  data : String
  pos : Nat
deriving Repr, DecidableEq

/-- `bytes.NewReader(b)`: cursor at the start. -/
def BytesReader.new (b : String) : BytesReader := ⟨b, 0⟩

/-- `body.Seek(0, io.SeekStart)` (`harvester.go:300`). -/
def BytesReader.seekStart (r : BytesReader) : BytesReader := { r with pos := 0 }

/-- `io.ReadAll(r)` on a bytes reader: yields the bytes from the cursor
to the end and leaves the cursor at the end. -/
def BytesReader.readAll (r : BytesReader) : String × BytesReader :=
  (⟨r.data.data.drop r.pos⟩, { r with pos := r.data.data.length })

/-- The body-handling tail of `fetch` (`harvester.go:290-314` and
`handleHtmlDo`, `331-336`) with one response hook that reads the body
to the end (as the hook in `TestHarvester_Visit` does): buffer the body,
seek to start, let the hook read, then let the HTML parse read from the
same shared reader.  Returns the byte sequences seen by the hook and by
the parse. -/
def bufferedBodyReads (b : String) : String × String :=
  ((((BytesReader.new b).seekStart).readAll).1,
   (((((BytesReader.new b).seekStart).readAll).2).readAll).1)

end Grawlr

/-- Claim C2 (code bug): the buffered body is *not* independently
readable by the response hooks and the HTML parse: both consume the one
shared `bytes.Reader`, and nothing re-seeks it between `handleResponseDo`
and `handleHtmlDo`.  On the body `"<html></html>"`, a response hook that
reads to the end sees the full bytes but the subsequent HTML parse then
reads the empty remainder, not the original sequence. -/
theorem Grawlr.claim_C2_shared_cursor :
    Grawlr.bufferedBodyReads "<html></html>" = ("<html></html>", "") ∧
    ("" : String) ≠ "<html></html>" := by
  refine ⟨rfl, by decide⟩

/-- A parsed `net/url` reference, as far as `GetAbsoluteURL`'s callers
observe it: the scheme (empty for a relative reference) and the rest of
the string after the `scheme:` separator (the whole string when there is
no scheme). -/
structure Grawlr.NetRef where
  scheme : String
  rest : String
deriving Repr, DecidableEq

namespace Grawlr

/-- Modelled from `net/url.getScheme` (an external collaborator of the
repository): a scheme is a leading alphabetic character followed by
alphanumeric, `+`, `-` or `.` characters and terminated by `:`;
otherwise the reference has no scheme. -/
def findScheme : List Char → List Char → Option (List Char × List Char)
  | _, [] => none
  | acc, c :: cs =>
    if c = ':' then (if acc.isEmpty then none else some (acc.reverse, cs))
    else if c.isAlpha || (!acc.isEmpty && (c.isDigit || c = '+' || c = '-' || c = '.')) then
      findScheme (c :: acc) cs
    else none

/-- Modelled from `net/url.Parse` (external collaborator) on the URL and
link shapes exercised below: split off the scheme when present. -/
def netParse (s : String) : Option NetRef :=
  match findScheme [] s.data with
  | some (sch, rest) => some ⟨⟨sch⟩, ⟨rest⟩⟩
  | none => some ⟨"", s⟩

/-- Host and path of an authority-form rest (`"//host/path..."`). -/
def splitHostPath (rest : String) : String × String :=
  if strStartsWith rest "//" then
    (⟨(rest.data.drop 2).takeWhile (fun c => c ≠ '/')⟩,
     ⟨(rest.data.drop 2).dropWhile (fun c => c ≠ '/')⟩)
  else ("", rest)

/-- The path up to and including its last `/`. -/
def dirOf (path : String) : String :=
  ⟨(path.data.reverse.dropWhile (fun c => c ≠ '/')).reverse⟩

/-- Modelled from `net/url.URL.ResolveReference` composed with
`String()` (external collaborator), for the reference shapes exercised
below: an absolute reference (a reference with a scheme) resolves to
itself; a protocol-relative, rooted, or relative reference is resolved
against the base's scheme, authority and directory (the inputs used
below need no dot-segment normalization). -/
def netResolvedString (base ref : NetRef) : String :=
  if ref.scheme ≠ "" then ref.scheme ++ ":" ++ ref.rest
  else if strStartsWith ref.rest "//" then base.scheme ++ ":" ++ ref.rest
  else if strStartsWith ref.rest "/" then
    base.scheme ++ "://" ++ (splitHostPath base.rest).1 ++ ref.rest
  else
    base.scheme ++ "://" ++ (splitHostPath base.rest).1 ++
      dirOf (splitHostPath base.rest).2 ++ ref.rest

/-- `Request.GetAbsoluteURL` (`src/unnamed/part_008:306-326`),
parameterized by the `net/url` collaborators: `parse` models `url.Parse`
(`none` = error, upon which the function prints and returns `""`), and
`resolvedString` models `base.ResolveReference(href).String()`.  The
only local logic is the leading-`#` fragment check; there is no scheme
inspection anywhere. -/
def GetAbsoluteURL {α : Type} (parse : String → Option α)
    (resolvedString : α → α → String) (pageURL : String) (link : String) :
    String :=
  if strStartsWith link "#" then ""
  else
    match parse pageURL with
    | none => ""
    | some base =>
      match parse link with
      | none => ""
      | some href => resolvedString base href

end Grawlr

/-- Claim C9 (counterexample): `GetAbsoluteURL` does not drop non-http(s)
schemes: a `mailto:` link on an `http` page resolves (per RFC 3986, an
absolute reference resolves to itself) and is returned verbatim, not
replaced by the empty string. -/
theorem Grawlr.claim_C9_counterexample :
    Grawlr.GetAbsoluteURL Grawlr.netParse Grawlr.netResolvedString
      "http://ex.com/faq" "mailto:user@ex.com" = "mailto:user@ex.com" ∧
    Grawlr.netParse "mailto:user@ex.com" = some ⟨"mailto", "user@ex.com"⟩ ∧
    ("mailto:user@ex.com" : String) ≠ "" := by
  refine ⟨by decide, by decide, by decide⟩

/-- Claim C9 (amended): `GetAbsoluteURL` returns the empty string for
every fragment-only reference (a link starting with `#`) and whenever
parsing the page URL or the link fails; for every other link it returns
the link resolved against the request's page URL unchanged — whatever
the resolved scheme is.  (Non-http(s) filtering exists only in the
separate `LinkParser`, not here.) -/
theorem Grawlr.claim_C9_get_absolute_url {α : Type}
    (parse : String → Option α) (resolvedString : α → α → String)
    (pageURL link : String) :
    (Grawlr.strStartsWith link "#" = true →
      Grawlr.GetAbsoluteURL parse resolvedString pageURL link = "") ∧
    (Grawlr.strStartsWith link "#" = false → parse pageURL = none →
      Grawlr.GetAbsoluteURL parse resolvedString pageURL link = "") ∧
    (Grawlr.strStartsWith link "#" = false → parse link = none →
      Grawlr.GetAbsoluteURL parse resolvedString pageURL link = "") ∧
    (∀ base href, Grawlr.strStartsWith link "#" = false →
      parse pageURL = some base → parse link = some href →
      Grawlr.GetAbsoluteURL parse resolvedString pageURL link =
        resolvedString base href) := by
  refine ⟨?_, ?_, ?_, ?_⟩
  · intro hf
    simp [Grawlr.GetAbsoluteURL, hf]
  · intro hf hp
    simp [Grawlr.GetAbsoluteURL, hf, hp]
  · intro hf hl
    cases hp : parse pageURL <;> simp [Grawlr.GetAbsoluteURL, hf, hp, hl]
  · intro base href hf hp hl
    simp [Grawlr.GetAbsoluteURL, hf, hp, hl]

/-- Claim C9 (witness): concretely, a fragment link yields `""`, and the
`mailto:` link of the counterexample resolves to itself through the
modelled `net/url`. -/
theorem Grawlr.claim_C9_witness :
    (Grawlr.strStartsWith "#section2" "#" = true ∧
      Grawlr.GetAbsoluteURL Grawlr.netParse Grawlr.netResolvedString
        "http://ex.com/faq" "#section2" = "") ∧
    (Grawlr.strStartsWith "mailto:user@ex.com" "#" = false ∧
      Grawlr.netParse "http://ex.com/faq" = some ⟨"http", "//ex.com/faq"⟩ ∧
      Grawlr.netParse "mailto:user@ex.com" = some ⟨"mailto", "user@ex.com"⟩ ∧
      Grawlr.GetAbsoluteURL Grawlr.netParse Grawlr.netResolvedString
        "http://ex.com/faq" "mailto:user@ex.com" =
        Grawlr.netResolvedString ⟨"http", "//ex.com/faq"⟩
          ⟨"mailto", "user@ex.com"⟩) :=
  ⟨⟨by decide,
    (Grawlr.claim_C9_get_absolute_url Grawlr.netParse Grawlr.netResolvedString
      "http://ex.com/faq" "#section2").1 (by decide)⟩,
   ⟨by decide, by decide, by decide,
    (Grawlr.claim_C9_get_absolute_url Grawlr.netParse Grawlr.netResolvedString
      "http://ex.com/faq" "mailto:user@ex.com").2.2.2
      ⟨"http", "//ex.com/faq"⟩ ⟨"mailto", "user@ex.com"⟩
      (by decide) (by decide) (by decide)⟩⟩

/-- Claim C1 (counterexample): with a fresh Harvester whose deny list
matches the URL and robots checking enabled (the default), `Visit`
returns the forbidden error, yet it has issued an HTTP request — the
robots.txt fetch, which `fetch` performs before the policy check — so
"issues no HTTP request of any kind" fails. -/
theorem Grawlr.claim_C1_counterexample :
    (Grawlr.fetch ⟨[], ["http://ex.com/"], 0, false, false⟩ Grawlr.wOK
        Grawlr.st0 ⟨"http", "ex.com", "/page"⟩ 0).result =
      .error (.forbiddenURL "http://ex.com/page") ∧
    (Grawlr.fetch ⟨[], ["http://ex.com/"], 0, false, false⟩ Grawlr.wOK
        Grawlr.st0 ⟨"http", "ex.com", "/page"⟩ 0).reqs ≠ [] := by
  constructor
  · rfl
  · decide

/-- Claim C1 (amended): for every URL whose absolute form matches a
disallow entry, `fetch` never issues the page request itself and leaves
the visited store unchanged; the only HTTP request it may issue is the
robots.txt fetch that `checkRobots` performs first on a cache miss.
When robots checking is disabled, no HTTP request at all is issued and
the call returns the forbidden error (or the already-visited error when
the URL was visited earlier and revisits are off, since that check runs
first). -/
theorem Grawlr.claim_C1_amended (cfg : Grawlr.Config) (w : Grawlr.World)
    (st : Grawlr.HState) (pu : Grawlr.URL) (depth : Nat)
    (hd : Grawlr.anyMatchingStart cfg.disallowedURLs pu.toString = true) :
    (Grawlr.fetch cfg w st pu depth).state.visited = st.visited ∧
    (∀ e ∈ (Grawlr.fetch cfg w st pu depth).reqs, e.isPageReq = false) ∧
    (cfg.ignoreRobots = true →
      (Grawlr.fetch cfg w st pu depth).reqs = [] ∧
      (Grawlr.fetch cfg w st pu depth).result =
        .error (if !cfg.allowRevisit && st.visitedB pu.toString
                then .visitedURL pu.toString
                else .forbiddenURL pu.toString)) := by
  have hall := Grawlr.isURLAllowed_false_of_disallow cfg pu.toString hd
  rcases hcr : Grawlr.checkRobots cfg w st pu with ⟨res, st₁, evs⟩
  have hv : st₁.visited = st.visited := by
    have h := Grawlr.checkRobots_visited cfg w st pu
    rw [hcr] at h; exact h
  have hpg : ∀ e ∈ evs, e.isPageReq = false := by
    have h := Grawlr.checkRobots_reqs_not_page cfg w st pu
    rw [hcr] at h; exact h
  have hvb : st₁.visitedB pu.toString = st.visitedB pu.toString := by
    simp [Grawlr.HState.visitedB, hv]
  cases res with
  | error e =>
      refine ⟨?_, ?_, ?_⟩
      · simp [Grawlr.fetch, hcr, hv]
      · simpa [Grawlr.fetch, hcr] using hpg
      · intro hir
        have : Grawlr.checkRobots cfg w st pu = (.ok (), st, []) := by
          simp [Grawlr.checkRobots, hir]
        rw [hcr] at this
        cases this
  | ok x =>
      cases x
      have hcf : Grawlr.checkFilters cfg st₁ pu.toString =
          .error (if !cfg.allowRevisit && st.visitedB pu.toString
                  then .visitedURL pu.toString
                  else .forbiddenURL pu.toString) := by
        cases hvis : (!cfg.allowRevisit && st.visitedB pu.toString) with
        | true => simp [Grawlr.checkFilters, hvb, hvis]
        | false => simp [Grawlr.checkFilters, hvb, hvis, hall]
      refine ⟨?_, ?_, ?_⟩
      · simp [Grawlr.fetch, hcr, hcf, hv]
      · simpa [Grawlr.fetch, hcr, hcf] using hpg
      · intro hir
        have heq : Grawlr.checkRobots cfg w st pu = (.ok (), st, []) := by
          simp [Grawlr.checkRobots, hir]
        rw [hcr] at heq
        injection heq with h1 h2
        injection h2 with h2 h3
        subst h2 h3
        simp [Grawlr.fetch, hcr, hcf]

/-- Claim C1 (witness): a concrete deny-listed URL on a robots-ignoring
Harvester: the deny entry matches, no HTTP request is issued, the
visited store is untouched, and the forbidden error is returned. -/
theorem Grawlr.claim_C1_amended_witness :
    Grawlr.anyMatchingStart (Grawlr.Config.disallowedURLs
        ⟨[], ["http://ex.com/"], 0, false, true⟩)
        (Grawlr.URL.toString ⟨"http", "ex.com", "/page"⟩) = true ∧
    ((Grawlr.fetch ⟨[], ["http://ex.com/"], 0, false, true⟩ Grawlr.wOK
        Grawlr.st0 ⟨"http", "ex.com", "/page"⟩ 0).state.visited =
      Grawlr.st0.visited ∧
    (∀ e ∈ (Grawlr.fetch ⟨[], ["http://ex.com/"], 0, false, true⟩ Grawlr.wOK
        Grawlr.st0 ⟨"http", "ex.com", "/page"⟩ 0).reqs, e.isPageReq = false) ∧
    ((⟨[], ["http://ex.com/"], 0, false, true⟩ : Grawlr.Config).ignoreRobots = true →
      (Grawlr.fetch ⟨[], ["http://ex.com/"], 0, false, true⟩ Grawlr.wOK
        Grawlr.st0 ⟨"http", "ex.com", "/page"⟩ 0).reqs = [] ∧
      (Grawlr.fetch ⟨[], ["http://ex.com/"], 0, false, true⟩ Grawlr.wOK
        Grawlr.st0 ⟨"http", "ex.com", "/page"⟩ 0).result =
        .error (if !(⟨[], ["http://ex.com/"], 0, false, true⟩ : Grawlr.Config).allowRevisit &&
                   Grawlr.st0.visitedB (Grawlr.URL.toString ⟨"http", "ex.com", "/page"⟩)
                then .visitedURL (Grawlr.URL.toString ⟨"http", "ex.com", "/page"⟩)
                else .forbiddenURL (Grawlr.URL.toString ⟨"http", "ex.com", "/page"⟩)))) :=
  ⟨by decide,
   Grawlr.claim_C1_amended ⟨[], ["http://ex.com/"], 0, false, true⟩ Grawlr.wOK
     Grawlr.st0 ⟨"http", "ex.com", "/page"⟩ 0 (by decide)⟩

/-- Claim C5: the URL policy check of `isURLAllowed` coincides, for every
configuration and every URL string, with the exact rule stated by the
spec: a URL matching any disallow-prefix is rejected regardless of the
allow list; otherwise an empty allow list allows every URL, and a
non-empty allow list allows a URL iff it matches at least one of its
entries. -/
theorem Grawlr.claim_C5_url_policy_exact_rule (cfg : Grawlr.Config) (u : String) :
    Grawlr.isURLAllowed cfg u = Grawlr.isURLAllowedSpec cfg u := by
  unfold Grawlr.isURLAllowed Grawlr.isURLAllowedSpec
  rw [Grawlr.anyMatchingStart_eq_any, Grawlr.anyMatchingStart_eq_any]
  rcases cfg.allowedURLs with _ | ⟨a, rest⟩ <;> simp

/-- Claim C4 (counterexample): the forbidden-URL errors are not identity
sentinels: two forbidden errors for different URLs are different values
(their messages differ), so "any two errors of the same kind are the same
value" fails. -/
theorem Grawlr.claim_C4_counterexample :
    Grawlr.ErrForbiddenURL "http://a.example/" ≠ Grawlr.ErrForbiddenURL "http://b.example/" := by
  decide

namespace Grawlr

theorem msg_ne_of_last_ne (p q : String) (s t : String) (c d : Char)
    (hs : s.data.getLast? = some c) (ht : t.data.getLast? = some d)
    (hcd : c ≠ d) : p ++ s ≠ q ++ t := by
  intro h
  have h2 := congrArg (fun x : String => x.data.getLast?) h
  simp only [String.data_append, List.getLast?_append, hs, ht] at h2
  exact hcd (Option.some.inj h2)

theorem msg_ne_of_head_ne (p q : String) (s t : String) (c d : Char)
    (hp : p.data.head? = some c) (hq : q.data.head? = some d)
    (hcd : c ≠ d) : p ++ s ≠ q ++ t := by
  intro h
  have h2 := congrArg (fun x : String => x.data.head?) h
  simp only [String.data_append, List.head?_append, hp, hq] at h2
  exact hcd (Option.some.inj h2)

theorem append_same_inj {p s u v : String}
    (h : p ++ u ++ s = p ++ v ++ s) : u = v := by
  have hd := congrArg String.data h
  simp only [String.data_append] at hd
  exact String.ext (List.append_cancel_left (List.append_cancel_right hd))

/-- Numeric value of a decimal digit character. -/
def charVal (c : Char) : Nat := c.toNat - '0'.toNat

/-- Value of a decimal digit string, most significant digit first. -/
def digitsVal (l : List Char) : Nat :=
  l.foldl (fun a c => 10 * a + charVal c) 0

theorem charVal_digitChar (m : Nat) (hm : m < 10) :
    charVal (Nat.digitChar m) = m := by
  interval_cases m <;> decide

theorem digitChar_isDigit (m : Nat) (hm : m < 10) :
    (Nat.digitChar m).isDigit = true := by
  interval_cases m <;> decide

theorem toDigitsCore_append (b : Nat) :
    ∀ (f n : Nat) (l : List Char),
      Nat.toDigitsCore b f n l = Nat.toDigitsCore b f n [] ++ l := by
  intro f
  induction f with
  | zero => intro n l; rfl
  | succ f ih =>
      intro n l
      simp only [Nat.toDigitsCore]
      by_cases h : n / b = 0
      · simp [h]
      · simp only [h, if_false]
        rw [ih (n / b) (Nat.digitChar (n % b) :: l),
            ih (n / b) (Nat.digitChar (n % b) :: [])]
        simp

theorem digitsVal_append_singleton (l : List Char) (c : Char) :
    digitsVal (l ++ [c]) = 10 * digitsVal l + charVal c := by
  simp [digitsVal, List.foldl_append]

/-- `Nat.toDigitsCore` is correct: with enough fuel, the digit string it
produces evaluates back to the number. -/
theorem digitsVal_toDigitsCore :
    ∀ (f n : Nat), n < f →
      digitsVal (Nat.toDigitsCore 10 f n []) = n := by
  intro f
  induction f with
  | zero => intro n h; omega
  | succ f ih =>
      intro n h
      simp only [Nat.toDigitsCore]
      by_cases hdiv : n / 10 = 0
      · simp only [hdiv, if_true]
        have h10 : n < 10 := by omega
        have hm : n % 10 = n := Nat.mod_eq_of_lt h10
        simp [digitsVal, charVal, hm]
        have := charVal_digitChar n h10
        simp [charVal] at this
        omega
      · simp only [hdiv, if_false]
        rw [toDigitsCore_append, digitsVal_append_singleton]
        have hlt : n / 10 < f := by
          have h1 : n / 10 < n := Nat.div_lt_self (by omega) (by norm_num)
          omega
        rw [ih (n / 10) hlt, charVal_digitChar (n % 10) (Nat.mod_lt n (by norm_num))]
        omega

theorem toDigitsCore_digits :
    ∀ (f n : Nat) (l : List Char), (∀ c ∈ l, c.isDigit = true) →
      ∀ c ∈ Nat.toDigitsCore 10 f n l, c.isDigit = true := by
  intro f
  induction f with
  | zero => intro n l hl; exact hl
  | succ f ih =>
      intro n l hl
      simp only [Nat.toDigitsCore]
      by_cases hdiv : n / 10 = 0
      · simp only [hdiv, if_true]
        intro c hc
        rcases List.mem_cons.mp hc with h | h
        · subst h; exact digitChar_isDigit _ (Nat.mod_lt n (by norm_num))
        · exact hl c h
      · simp only [hdiv, if_false]
        apply ih
        intro c hc
        rcases List.mem_cons.mp hc with h | h
        · subst h; exact digitChar_isDigit _ (Nat.mod_lt n (by norm_num))
        · exact hl c h

theorem natRepr_data (n : Nat) :
    (Nat.repr n).data = Nat.toDigitsCore 10 (n + 1) n [] := rfl

/-- The decimal numeral `Nat.repr` produces determines the number. -/
theorem natRepr_inj {m n : Nat} (h : (Nat.repr m).data = (Nat.repr n).data) :
    m = n := by
  rw [natRepr_data, natRepr_data] at h
  have hm := digitsVal_toDigitsCore (m + 1) m (by omega)
  have hn := digitsVal_toDigitsCore (n + 1) n (by omega)
  rw [← hm, ← hn, h]

theorem natRepr_digits (n : Nat) :
    ∀ c ∈ (Nat.repr n).data, c.isDigit = true := by
  rw [natRepr_data]
  exact toDigitsCore_digits (n + 1) n [] (by simp)

/-- Two digit strings followed by the same non-digit-headed separator and
arbitrary tails can only be equal componentwise. -/
theorem digits_split {rest ll ll' : List Char} (c0 : Char)
    (hc0 : c0.isDigit = false) :
    ∀ (dd dd' : List Char), (∀ c ∈ dd, c.isDigit = true) →
      (∀ c ∈ dd', c.isDigit = true) →
      dd ++ c0 :: (rest ++ ll) = dd' ++ c0 :: (rest ++ ll') →
      dd = dd' ∧ ll = ll' := by
  intro dd
  induction dd with
  | nil =>
      intro dd' _ hd' heq
      cases dd' with
      | nil =>
          refine ⟨rfl, ?_⟩
          simp only [List.nil_append, List.cons.injEq] at heq
          exact List.append_cancel_left heq.2
      | cons c' t' =>
          simp only [List.nil_append, List.cons_append, List.cons.injEq] at heq
          have hdig := hd' c' (by simp)
          rw [← heq.1] at hdig
          rw [hdig] at hc0
          cases hc0
  | cons c t ih =>
      intro dd' hd hd' heq
      cases dd' with
      | nil =>
          simp only [List.nil_append, List.cons_append, List.cons.injEq] at heq
          have hdig := hd c (by simp)
          rw [heq.1] at hdig
          rw [hdig] at hc0
          cases hc0
      | cons c' t' =>
          simp only [List.cons_append, List.cons.injEq] at heq
          obtain ⟨h1, h2⟩ := heq
          subst h1
          obtain ⟨ha, hb⟩ := ih t' (fun x hx => hd x (by simp [hx]))
            (fun x hx => hd' x (by simp [hx])) h2
          exact ⟨by rw [ha], hb⟩

/-- The depth-exceeded message determines both interpolated numbers: the
numerals contain only digit characters and the `" > "` separator starts
with a non-digit, so the split is unique and `Nat.repr` is injective. -/
theorem errDepth_inj (d l d' l' : Nat)
    (h : ErrDepthLimitExceeded d l = ErrDepthLimitExceeded d' l') :
    d = d' ∧ l = l' := by
  unfold ErrDepthLimitExceeded at h
  have hts : ∀ k : Nat, (toString k : String) = Nat.repr k := fun _ => rfl
  rw [hts d, hts l, hts d', hts l'] at h
  have hd := congrArg String.data h
  simp only [String.data_append, List.append_assoc] at hd
  have hd2 := List.append_cancel_left hd
  have h3 := @digits_split ['>', ' '] (Nat.repr l).data (Nat.repr l').data ' '
    (by decide) (Nat.repr d).data (Nat.repr d').data
    (natRepr_digits d) (natRepr_digits d') hd2
  exact ⟨natRepr_inj h3.1, natRepr_inj h3.2⟩

end Grawlr

/-- Claim C4 (amended): the four error kinds are not identity sentinels but
are distinguishable by their messages: each constructor embeds its
arguments in a fixed message shape, errors of the same kind — forbidden,
robots-disallowed, already-visited, and depth-exceeded alike — coincide
exactly when their arguments coincide, and errors of different kinds are
never equal (each kind has a distinct fixed head or tail), so a caller
branches on the kind by inspecting the message, as the tests do with
message equality. -/
theorem Grawlr.claim_C4_errors_distinguished_by_message :
    (∀ u v, Grawlr.ErrForbiddenURL u = Grawlr.ErrForbiddenURL v ↔ u = v) ∧
    (∀ u v, Grawlr.ErrRobotsDisallowed u = Grawlr.ErrRobotsDisallowed v ↔ u = v) ∧
    (∀ u v, Grawlr.ErrVisitedURL u = Grawlr.ErrVisitedURL v ↔ u = v) ∧
    (∀ d l d' l', Grawlr.ErrDepthLimitExceeded d l =
        Grawlr.ErrDepthLimitExceeded d' l' ↔ d = d' ∧ l = l') ∧
    (∀ u v, Grawlr.ErrForbiddenURL u ≠ Grawlr.ErrRobotsDisallowed v) ∧
    (∀ u v, Grawlr.ErrForbiddenURL u ≠ Grawlr.ErrVisitedURL v) ∧
    (∀ u v, Grawlr.ErrRobotsDisallowed u ≠ Grawlr.ErrVisitedURL v) ∧
    (∀ u d l, Grawlr.ErrForbiddenURL u ≠ Grawlr.ErrDepthLimitExceeded d l) ∧
    (∀ u d l, Grawlr.ErrRobotsDisallowed u ≠ Grawlr.ErrDepthLimitExceeded d l) ∧
    (∀ u d l, Grawlr.ErrVisitedURL u ≠ Grawlr.ErrDepthLimitExceeded d l) := by
  unfold Grawlr.ErrForbiddenURL Grawlr.ErrRobotsDisallowed Grawlr.ErrVisitedURL
  refine ⟨?_, ?_, ?_, ?_, ?_, ?_, ?_, ?_, ?_, ?_⟩
  · exact fun u v =>
      ⟨fun h => Grawlr.append_same_inj h, fun h => by rw [h]⟩
  · exact fun u v =>
      ⟨fun h => Grawlr.append_same_inj h, fun h => by rw [h]⟩
  · exact fun u v =>
      ⟨fun h => Grawlr.append_same_inj h, fun h => by rw [h]⟩
  · exact fun d l d' l' =>
      ⟨fun h => Grawlr.errDepth_inj d l d' l' h,
       fun h => by rw [h.1, h.2]⟩
  · exact fun u v =>
      Grawlr.msg_ne_of_last_ne ("URL " ++ u) ("URL " ++ v) _ _ 'n' 't'
        (by decide) (by decide) (by decide)
  · exact fun u v =>
      Grawlr.msg_ne_of_last_ne ("URL " ++ u) ("URL " ++ v) _ _ 'n' 'd'
        (by decide) (by decide) (by decide)
  · exact fun u v =>
      Grawlr.msg_ne_of_last_ne ("URL " ++ u) ("URL " ++ v) _ _ 't' 'd'
        (by decide) (by decide) (by decide)
  · intro u d l
    unfold Grawlr.ErrDepthLimitExceeded
    simp only [String.append_assoc]
    exact Grawlr.msg_ne_of_head_ne "URL " "depth limit exceeded: " _ _ 'U' 'd'
      (by decide) (by decide) (by decide)
  · intro u d l
    unfold Grawlr.ErrDepthLimitExceeded
    simp only [String.append_assoc]
    exact Grawlr.msg_ne_of_head_ne "URL " "depth limit exceeded: " _ _ 'U' 'd'
      (by decide) (by decide) (by decide)
  · intro u d l
    unfold Grawlr.ErrDepthLimitExceeded
    simp only [String.append_assoc]
    exact Grawlr.msg_ne_of_head_ne "URL " "depth limit exceeded: " _ _ 'U' 'd'
      (by decide) (by decide) (by decide)
